import Mathlib

/-!
Verification development for the single-use-code voting service
(Go + PostgreSQL, `main.go` / `migrate.sql`).

The durable state is the `voters` table (one row per eligible participant);
the operations embedded here are the ones the HTTP handlers perform:

* `redeem` / `rowsAffected` — the conditional `UPDATE voters SET used = TRUE,
  used_at = NOW(), vote_choice = $1 WHERE code = $2 AND used = FALSE`
  (`main.go:314-318`);
* `submit` — the whole `voteHandler` control flow (`main.go:285-343`);
* the aggregate queries of `adminHandler` (`main.go:380-435`);
* `basicAuthValid` (`main.go:345-368`);
* the code-lookup branch of `indexHandler` (`main.go:250-278`).

Instants are modelled as natural numbers; `t.Before(u)` is `t < u` and
`t.After(u)` is `u < t`, matching Go's `time.Time` comparisons.
-/

namespace Pemilihan

/-- Row of the `voters` table (`migrate.sql`): `id SERIAL PRIMARY KEY`,
`code TEXT UNIQUE NOT NULL`, `name TEXT NOT NULL`,
`used BOOLEAN NOT NULL DEFAULT FALSE`, `used_at TIMESTAMPTZ`,
`vote_choice TEXT`. -/
structure Voter where
  id : Nat
  code : String
  name : String
  used : Bool
  usedAt : Option Nat
  choice : Option String
deriving DecidableEq, Repr

/-- A store state is the sequence of rows of `voters`, in insertion order
(`id` is assigned by the `SERIAL` sequence). -/
abbrev Store := List Voter

/-- Well-formedness coming from the `UNIQUE` constraint on `code`. -/
def CodesUnique (s : Store) : Prop :=
  s.Pairwise (fun a b => a.code ≠ b.code)

instance (s : Store) : Decidable (CodesUnique s) := by
  unfold CodesUnique
  infer_instance

/-- Whitespace predicate of Go's `unicode.IsSpace` on the Latin-1 range:
space, tab, newline, vertical tab, form feed, carriage return, NEL and
no-break space. -/
def isSpaceChar (c : Char) : Bool :=
  c == ' ' || c == '\t' || c == '\n' || c == '\x0b' || c == '\x0c' ||
    c == '\r' || c == '\u0085' || c == '\u00a0'

/-- Go's `strings.TrimSpace`: drop leading and trailing whitespace. -/
def trimSpace (s : String) : String :=
  ⟨((s.data.dropWhile isSpaceChar).reverse.dropWhile isSpaceChar).reverse⟩

/-- Row transformer of the conditional update: a row is rewritten exactly
when it matches `WHERE code = $2 AND used = FALSE` (`main.go:314-318`). -/
def redeemRow (code choice : String) (now : Nat) (v : Voter) : Voter :=
  if v.code == code && !v.used then
    { v with used := true, usedAt := some now, choice := some choice }
  else v

/-- Store after the conditional `UPDATE` of `main.go:314-318`. -/
def redeemStore (s : Store) (code choice : String) (now : Nat) : Store :=
  s.map (redeemRow code choice now)

/-- The `RowsAffected` count of the conditional `UPDATE`: the number of rows
matching `code = $2 AND used = FALSE`. -/
def rowsAffected (s : Store) (code : String) : Nat :=
  (s.filter (fun v => v.code == code && !v.used)).length

/-- The store operation `redeem(code, choice, now) -> RowsAffected` of the
specification, i.e. executing the single conditional `UPDATE`. -/
def redeem (s : Store) (code choice : String) (now : Nat) : Store × Nat :=
  (redeemStore s code choice now, rowsAffected s code)

/-- Result of `SELECT EXISTS(SELECT 1 FROM voters WHERE code=$1)`
(`main.go:327`). -/
def storeExists (s : Store) (code : String) : Bool :=
  s.any (fun v => v.code == code)

/-- Outcome taxonomy of a vote submission, as surfaced by `voteHandler`:
`windowClosed` covers both 403 responses (`pemilihan belum dimulai`,
`pemilihan sudah ditutup`), `invalidInput` the two 400 responses for empty
trimmed fields, `codeNotFound` the 400 `kode tidak ditemukan`, `alreadyUsed`
the 409 `kode sudah digunakan`, `success` the redirect. -/
inductive SubmitResult where
  | windowClosed
  | invalidInput
  | codeNotFound
  | alreadyUsed
  | success
deriving DecidableEq, Repr

/-- The `voteHandler` control flow (`main.go:285-343`): the two window
checks (`time.Now().Before(voteStart)`, `time.Now().After(voteEnd)`), the
`strings.TrimSpace` emptiness checks on `code` and `choice`, the conditional
`UPDATE`, and — when `RowsAffected = 0` — the `EXISTS` query distinguishing
`codeNotFound` from `alreadyUsed`. Returns the outcome and the store after
the call. -/
def submit (start fin : Nat) (s : Store) (codeRaw choiceRaw : String)
    (now : Nat) : SubmitResult × Store :=
  if now < start then (.windowClosed, s)
  else if fin < now then (.windowClosed, s)
  else
    let code := trimSpace codeRaw
    let choice := trimSpace choiceRaw
    if code = "" then (.invalidInput, s)
    else if choice = "" then (.invalidInput, s)
    else
      let s2 := redeemStore s code choice now
      if rowsAffected s code = 0 then
        if storeExists s2 code then (.alreadyUsed, s2)
        else (.codeNotFound, s2)
      else (.success, s2)

/-- Sequential execution of a list of submissions `(code, choice, now)`
against the store, collecting each call's outcome. -/
def runSubmits (start fin : Nat) : Store → List (String × String × Nat) →
    Store × List SubmitResult
  | s, [] => (s, [])
  | s, op :: rest =>
    let r := submit start fin s op.1 op.2.1 op.2.2
    let q := runSubmits start fin r.2 rest
    (q.1, r.1 :: q.2)

/-- Number of submissions for (trimmed) code `c` whose outcome was
`success`, among paired-up operations and results. -/
def successCount (c : String) :
    List ((String × String × Nat) × SubmitResult) → Nat
  | [] => 0
  | p :: rest =>
    (if trimSpace p.1.1 = c ∧ p.2 = .success then 1 else 0) + successCount c rest

/-- Per-row invariant of the data model: `used = true` iff `used_at` is
non-null iff `choice` is non-null. -/
def RowInv (v : Voter) : Prop :=
  (v.used = true ↔ v.usedAt ≠ none) ∧ (v.used = true ↔ v.choice ≠ none)

instance (v : Voter) : Decidable (RowInv v) := by
  unfold RowInv
  infer_instance

/-- Store provisioned by the seed of `migrate.sql` (ids from the `SERIAL`
sequence, `used` defaulted to `FALSE`, `used_at` and `vote_choice` null). -/
def initialVoters : Store :=
  [⟨1, "Ht67h", "Titus Prasetyo", false, none, none⟩,
   ⟨2, "Ab12X", "Budi Santoso", false, none, none⟩,
   ⟨3, "Z9yQ1", "Siti Nurhayati", false, none, none⟩]

/-- Comparison underlying `ORDER BY used_at NULLS LAST, id`
(`main.go:408-411`): ascending `used_at` with null keys last, then
ascending `id`. -/
def voterLE (a b : Voter) : Bool :=
  match a.usedAt, b.usedAt with
  | none, none => decide (a.id ≤ b.id)
  | none, some _ => false
  | some _, none => true
  | some x, some y => decide (x < y) || (decide (x = y) && decide (a.id ≤ b.id))

/-- The rows query of `adminHandler` (`main.go:408-411`): every row of
`voters`, ordered by the `ORDER BY` clause. `ORDER BY` is modelled as a
stable sort of the table in insertion order. -/
def listAll (s : Store) : List Voter :=
  s.insertionSort (fun a b => voterLE a b = true)

/-- Count of `SELECT COUNT(*) FROM voters` (`main.go:382`). -/
def totalVoters (s : Store) : Nat := s.length

/-- Count of `COUNT(*) FILTER (WHERE used = true)` (`main.go:393`). -/
def votedCount (s : Store) : Nat := (s.filter (fun v => v.used)).length

/-- Derived count `notVotedCount := totalVoters - votedCount`
(`main.go:405`). -/
def notVotedCount (s : Store) : Nat := totalVoters s - votedCount s

/-- Count of `COUNT(*) FILTER (WHERE vote_choice = 'setuju')`
(`main.go:394`). -/
def setujuCount (s : Store) : Nat :=
  (s.filter (fun v => v.choice == some "setuju")).length

/-- Count of `COUNT(*) FILTER (WHERE vote_choice = 'tidak setuju')`
(`main.go:395`). -/
def tidakSetujuCount (s : Store) : Nat :=
  (s.filter (fun v => v.choice == some "tidak setuju")).length

/-- The partition of the rows scan with `v.Used` true (`main.go:430-431`). -/
def votedVoters (s : Store) : List Voter :=
  (listAll s).filter (fun v => v.used)

/-- The partition of the rows scan with `v.Used` false (`main.go:432-433`). -/
def notVotedVoters (s : Store) : List Voter :=
  (listAll s).filter (fun v => !v.used)

/-- Data assembled by `adminHandler` for the template (`main.go:444-462`). -/
structure AdminData where
  TotalVoters : Nat
  VotedCount : Nat
  NotVotedCount : Nat
  SetujuCount : Nat
  TidakSetujuCount : Nat
  AllVoters : List Voter
  VotedVoters : List Voter
  NotVotedVoters : List Voter
deriving DecidableEq, Repr

/-- The read path of `adminHandler` (`main.go:380-435`): three separate
queries with no enclosing transaction. `s1` is the committed store the
`COUNT(*)` query observes, `s2` the one the `FILTER` counts query observes,
and `s3` the one the rows query observes; a redemption committing between
two queries makes these states differ. -/
def adminSummary (s1 s2 s3 : Store) : AdminData :=
  { TotalVoters := totalVoters s1
    VotedCount := votedCount s2
    NotVotedCount := totalVoters s1 - votedCount s2
    SetujuCount := setujuCount s2
    TidakSetujuCount := tidakSetujuCount s2
    AllVoters := listAll s3
    VotedVoters := votedVoters s3
    NotVotedVoters := notVotedVoters s3 }

/-- Value of one base64 alphabet character (`encoding/base64` standard
alphabet), `none` for a character outside the alphabet. -/
def b64Val (c : Char) : Option Nat :=
  if 'A' ≤ c ∧ c ≤ 'Z' then some (c.toNat - 65)
  else if 'a' ≤ c ∧ c ≤ 'z' then some (c.toNat - 97 + 26)
  else if '0' ≤ c ∧ c ≤ '9' then some (c.toNat - 48 + 52)
  else if c = '+' then some 62
  else if c = '/' then some 63
  else none

/-- Decoding of a final base64 quantum of four characters, honouring the
`=` padding rules of Go's `StdEncoding`. -/
def decodeQuantum (c0 c1 c2 c3 : Char) : Option (List Nat) :=
  match b64Val c0, b64Val c1 with
  | some v0, some v1 =>
    if c2 = '=' then
      if c3 = '=' then some [4 * v0 + v1 / 16] else none
    else
      match b64Val c2 with
      | some v2 =>
        if c3 = '=' then some [4 * v0 + v1 / 16, 16 * (v1 % 16) + v2 / 4]
        else
          match b64Val c3 with
          | some v3 =>
            some [4 * v0 + v1 / 16, 16 * (v1 % 16) + v2 / 4, 64 * (v2 % 4) + v3]
          | none => none
      | none => none
  | _, _ => none

/-- Base64 decoding of Go's `base64.StdEncoding.DecodeString` over the
character sequence: whole quantums of four characters, `=` padding only in
the final quantum, `none` (an error) otherwise. -/
def base64DecodeChars : List Char → Option (List Nat)
  | [] => some []
  | c0 :: c1 :: c2 :: c3 :: rest =>
    if rest.isEmpty then decodeQuantum c0 c1 c2 c3
    else
      match b64Val c0, b64Val c1, b64Val c2, b64Val c3 with
      | some v0, some v1, some v2, some v3 =>
        match base64DecodeChars rest with
        | some bs =>
          some ([4 * v0 + v1 / 16, 16 * (v1 % 16) + v2 / 4, 64 * (v2 % 4) + v3] ++ bs)
        | none => none
      | _, _, _, _ => none
  | _ => none

/-- UTF-8 bytes of one character. -/
def charBytes (c : Char) : List Nat :=
  let n := c.toNat
  if n < 128 then [n]
  else if n < 2048 then [192 + n / 64, 128 + n % 64]
  else if n < 65536 then [224 + n / 4096, 128 + (n / 64) % 64, 128 + n % 64]
  else [240 + n / 262144, 128 + (n / 4096) % 64, 128 + (n / 64) % 64, 128 + n % 64]

/-- UTF-8 bytes of a string, for Go's bytewise string comparison. -/
def utf8Bytes (s : String) : List Nat :=
  s.data.flatMap charBytes

/-- Split of `strings.SplitN(payload, ":", 2)`: `none` when the payload has
no colon byte (so `len(parts) != 2`), otherwise the bytes before the first
colon and all bytes after it. -/
def splitColon : List Nat → Option (List Nat × List Nat)
  | [] => none
  | b :: rest =>
    if b = 58 then some ([], rest)
    else
      match splitColon rest with
      | some p => some (b :: p.1, p.2)
      | none => none

/-- The `basicAuthValid` check of `main.go:345-368`: reject when either
configured credential is empty, when the `Authorization` header is empty,
lacks the `Basic ` scheme, fails base64 decoding, or has no colon in the
decoded payload; otherwise compare both parts bytewise against the
configured credentials. -/
def basicAuthValid (auth : String) (user pass : String) : Bool :=
  if user = "" || pass = "" then false
  else if auth = "" then false
  else if !(List.isPrefixOf ("Basic ").data auth.data) then false
  else
    match base64DecodeChars (auth.data.drop 6) with
    | none => false
    | some payload =>
      match splitColon payload with
      | none => false
      | some p => p.1 == utf8Bytes user && p.2 == utf8Bytes pass

/-- Database visible to the handlers: the `voters` table, plus the `votes`
relation that `indexHandler` queries — `none` when that relation was never
created, in which case any query against it errors. -/
structure DB where
  voters : Store
  votesTable : Option (List (String × String))
deriving DecidableEq, Repr

/-- Database provisioned by `migrate.sql`: only the `voters` table exists;
no `votes` relation is ever created. -/
def migrateDB : DB :=
  { voters := initialVoters, votesTable := none }

/-- Result of `QueryRow("SELECT choice FROM votes WHERE code=$1")` in
`indexHandler` (`main.go:264`): an error (`none`) when the `votes` relation
does not exist or no row matches, the scanned choice otherwise. -/
def votesQuery (db : DB) (code : String) : Option String :=
  match db.votesTable with
  | none => none
  | some rows => (rows.find? (fun r => r.1 == code)).map (fun r => r.2)

/-- Fields of `ViewData` populated by the code-lookup branch of
`indexHandler`. -/
structure ViewData where
  code : String
  name : String
  message : String
  beforeStart : Bool
  afterEnd : Bool
  alreadyUsed : Bool
  hasVoted : Bool
deriving DecidableEq, Repr

/-- The code-lookup path of `indexHandler` (`main.go:236-278`): window
messaging, the `voters` row lookup, and — for a used code — the `votes`
query whose error is silently mapped to `HasVoted = false`
(`data.HasVoted = (err == nil)`, `main.go:265`). -/
def indexLookup (db : DB) (start fin now : Nat) (code : String) : ViewData :=
  let d0 : ViewData :=
    { code := code, name := "", message := "", beforeStart := false,
      afterEnd := false, alreadyUsed := false, hasVoted := false }
  let d1 :=
    if now < start then
      { d0 with
        beforeStart := true
        message := "Pemilihan belum dimulai — tunggu sampai waktu pembukaan." }
    else if fin < now then
      { d0 with afterEnd := true, message := "Pemilihan ditutup." }
    else d0
  if code = "" then d1
  else
    match db.voters.find? (fun v => v.code == code) with
    | none => { d1 with message := "Kode tidak ditemukan!" }
    | some v =>
      if v.used then
        let hv := (votesQuery db code).isSome
        { d1 with
          name := v.name
          alreadyUsed := true
          hasVoted := hv
          message :=
            if hv then "Terima kasih telah memilih."
            else "Kode sudah digunakan." }
      else
        if !d1.beforeStart && !d1.afterEnd then
          { d1 with
            name := v.name
            message := "Selamat, " ++ v.name ++ "! Silakan pilih." }
        else { d1 with name := v.name }

/-! ### Helper lemmas about the conditional update -/

lemma redeemRow_code_eq (code ch : String) (now : Nat) (v : Voter) :
    (redeemRow code ch now v).code = v.code := by
  unfold redeemRow
  split <;> rfl

lemma redeemRow_eq_of_used (code ch : String) (now : Nat) (v : Voter)
    (h : v.used = true) : redeemRow code ch now v = v := by
  unfold redeemRow
  rw [if_neg]
  simp [h]

lemma redeemRow_eq_update (code ch : String) (now : Nat) (v : Voter)
    (hc : v.code = code) (hu : v.used = false) :
    redeemRow code ch now v =
      { v with used := true, usedAt := some now, choice := some ch } := by
  unfold redeemRow
  rw [if_pos]
  simp [hc, hu]

lemma redeemRow_used_of_code (code ch : String) (now : Nat) (v : Voter)
    (hc : v.code = code) : (redeemRow code ch now v).used = true := by
  by_cases hu : v.used = true
  · rw [redeemRow_eq_of_used code ch now v hu]
    exact hu
  · rw [redeemRow_eq_update code ch now v hc (by simpa using hu)]

lemma rowsAffected_eq_zero_iff (s : Store) (code : String) :
    rowsAffected s code = 0 ↔ ∀ v ∈ s, v.code = code → v.used = true := by
  rw [rowsAffected, List.length_eq_zero, List.filter_eq_nil_iff]
  constructor
  · intro h v hv hc
    have := h v hv
    simp only [Bool.and_eq_true, beq_iff_eq, Bool.not_eq_true', not_and] at this
    have := this hc
    simpa using this
  · intro h v hv
    simp only [Bool.and_eq_true, beq_iff_eq, Bool.not_eq_true', not_and]
    intro hc
    simp [h v hv hc]

lemma rowsAffected_ne_zero_iff (s : Store) (code : String) :
    rowsAffected s code ≠ 0 ↔ ∃ v ∈ s, v.code = code ∧ v.used = false := by
  rw [Ne, rowsAffected_eq_zero_iff]
  push_neg
  constructor
  · rintro ⟨v, hv, hc, hu⟩
    exact ⟨v, hv, hc, by simpa using hu⟩
  · rintro ⟨v, hv, hc, hu⟩
    exact ⟨v, hv, hc, by simp [hu]⟩

lemma redeemStore_eq_of_zero (s : Store) (code ch : String) (now : Nat)
    (h : rowsAffected s code = 0) : redeemStore s code ch now = s := by
  rw [rowsAffected_eq_zero_iff] at h
  have hfix : ∀ v ∈ s, redeemRow code ch now v = v := by
    intro v hv
    by_cases hc : v.code = code
    · exact redeemRow_eq_of_used code ch now v (h v hv hc)
    · unfold redeemRow
      rw [if_neg]
      simp [hc]
  rw [redeemStore, List.map_congr_left hfix]
  simp

lemma storeExists_iff (s : Store) (code : String) :
    storeExists s code = true ↔ ∃ v ∈ s, v.code = code := by
  simp [storeExists, List.any_eq_true]

lemma storeExists_redeemStore (s : Store) (code ch c2 : String) (now : Nat) :
    storeExists (redeemStore s code ch now) c2 = storeExists s c2 := by
  rw [storeExists, redeemStore, List.any_map]
  congr 1
  funext v
  simp [Function.comp, redeemRow_code_eq]

/-! ### Helper lemmas about a single submission -/

lemma submit_before (start fin : Nat) (s : Store) (cr chr : String)
    (now : Nat) (h : now < start) :
    submit start fin s cr chr now = (.windowClosed, s) := by
  simp [submit, h]

lemma submit_after (start fin : Nat) (s : Store) (cr chr : String)
    (now : Nat) (h1 : ¬ now < start) (h2 : fin < now) :
    submit start fin s cr chr now = (.windowClosed, s) := by
  simp [submit, h1, h2]

lemma submit_open (start fin : Nat) (s : Store) (cr chr : String)
    (now : Nat) (h1 : ¬ now < start) (h2 : ¬ fin < now) :
    submit start fin s cr chr now =
      if trimSpace cr = "" then (.invalidInput, s)
      else if trimSpace chr = "" then (.invalidInput, s)
      else if rowsAffected s (trimSpace cr) = 0 then
        if storeExists (redeemStore s (trimSpace cr) (trimSpace chr) now)
            (trimSpace cr) then
          (.alreadyUsed, redeemStore s (trimSpace cr) (trimSpace chr) now)
        else (.codeNotFound, redeemStore s (trimSpace cr) (trimSpace chr) now)
      else (.success, redeemStore s (trimSpace cr) (trimSpace chr) now) := by
  simp only [submit, if_neg h1, if_neg h2]

lemma submit_fst_eq_success_iff (start fin : Nat) (s : Store)
    (cr chr : String) (now : Nat) :
    (submit start fin s cr chr now).1 = .success ↔
      ¬ now < start ∧ ¬ fin < now ∧ trimSpace cr ≠ "" ∧ trimSpace chr ≠ "" ∧
        rowsAffected s (trimSpace cr) ≠ 0 := by
  by_cases h1 : now < start
  · simp [submit_before start fin s cr chr now h1, h1]
  by_cases h2 : fin < now
  · simp [submit_after start fin s cr chr now h1 h2, h1, h2]
  rw [submit_open start fin s cr chr now h1 h2]
  split_ifs with ha hb hc hd <;> simp_all

lemma submit_snd_eq_of_success (start fin : Nat) (s : Store)
    (cr chr : String) (now : Nat)
    (h : (submit start fin s cr chr now).1 = .success) :
    (submit start fin s cr chr now).2 =
      redeemStore s (trimSpace cr) (trimSpace chr) now := by
  rw [submit_fst_eq_success_iff] at h
  obtain ⟨h1, h2, hc, hch, hra⟩ := h
  rw [submit_open start fin s cr chr now h1 h2, if_neg hc, if_neg hch,
    if_neg hra]

lemma submit_snd_eq_of_ne_success (start fin : Nat) (s : Store)
    (cr chr : String) (now : Nat)
    (h : (submit start fin s cr chr now).1 ≠ .success) :
    (submit start fin s cr chr now).2 = s := by
  by_cases h1 : now < start
  · rw [submit_before start fin s cr chr now h1]
  by_cases h2 : fin < now
  · rw [submit_after start fin s cr chr now h1 h2]
  rw [submit_open start fin s cr chr now h1 h2] at h ⊢
  split_ifs with ha hb hc hd
  · rfl
  · rfl
  · exact redeemStore_eq_of_zero s (trimSpace cr) (trimSpace chr) now hc
  · exact redeemStore_eq_of_zero s (trimSpace cr) (trimSpace chr) now hc
  · simp only [if_neg ha, if_neg hb, if_neg hc] at h
    exact absurd rfl h

/-! ### Once a code's rows are used they stay used -/

/-- Every row carrying code `c` is already redeemed. -/
def AllUsed (c : String) (s : Store) : Prop :=
  ∀ v ∈ s, v.code = c → v.used = true

lemma allUsed_redeemStore (c code ch : String) (now : Nat) (s : Store)
    (h : AllUsed c s) : AllUsed c (redeemStore s code ch now) := by
  intro v' hv'
  rw [redeemStore, List.mem_map] at hv'
  obtain ⟨v, hv, rfl⟩ := hv'
  rw [redeemRow_code_eq]
  intro hc
  rw [redeemRow_eq_of_used code ch now v (h v hv hc)]
  exact h v hv hc

lemma allUsed_submit (c : String) (start fin : Nat) (s : Store)
    (cr chr : String) (now : Nat) (h : AllUsed c s) :
    AllUsed c (submit start fin s cr chr now).2 := by
  by_cases hs : (submit start fin s cr chr now).1 = .success
  · rw [submit_snd_eq_of_success start fin s cr chr now hs]
    exact allUsed_redeemStore c (trimSpace cr) (trimSpace chr) now s h
  · rw [submit_snd_eq_of_ne_success start fin s cr chr now hs]
    exact h

lemma allUsed_of_success (start fin : Nat) (s : Store) (cr chr : String)
    (now : Nat) (h : (submit start fin s cr chr now).1 = .success) :
    AllUsed (trimSpace cr) (submit start fin s cr chr now).2 := by
  rw [submit_snd_eq_of_success start fin s cr chr now h]
  intro v' hv'
  rw [redeemStore, List.mem_map] at hv'
  obtain ⟨v, hv, rfl⟩ := hv'
  rw [redeemRow_code_eq]
  intro hc
  exact redeemRow_used_of_code (trimSpace cr) (trimSpace chr) now v hc

lemma no_success_of_allUsed (c : String) (start fin : Nat) (s : Store)
    (cr chr : String) (now : Nat) (h : AllUsed c s) (hc : trimSpace cr = c) :
    (submit start fin s cr chr now).1 ≠ .success := by
  intro hs
  rw [submit_fst_eq_success_iff] at hs
  obtain ⟨-, -, -, -, hra⟩ := hs
  rw [hc, rowsAffected_ne_zero_iff] at hra
  obtain ⟨v, hv, hvc, hvu⟩ := hra
  rw [h v hv hvc] at hvu
  exact Bool.noConfusion hvu

lemma runSubmits_cons (start fin : Nat) (s : Store)
    (op : String × String × Nat) (rest : List (String × String × Nat)) :
    runSubmits start fin s (op :: rest) =
      ((runSubmits start fin (submit start fin s op.1 op.2.1 op.2.2).2 rest).1,
       (submit start fin s op.1 op.2.1 op.2.2).1 ::
         (runSubmits start fin (submit start fin s op.1 op.2.1 op.2.2).2 rest).2) :=
  rfl

lemma successCount_cons (c : String)
    (p : (String × String × Nat) × SubmitResult)
    (l : List ((String × String × Nat) × SubmitResult)) :
    successCount c (p :: l) =
      (if trimSpace p.1.1 = c ∧ p.2 = .success then 1 else 0) +
        successCount c l :=
  rfl

lemma successCount_zero_of_allUsed (c : String) (start fin : Nat)
    (ops : List (String × String × Nat)) :
    ∀ s : Store, AllUsed c s →
      successCount c (ops.zip (runSubmits start fin s ops).2) = 0 := by
  induction ops with
  | nil => intro s _; rfl
  | cons op rest ih =>
    intro s h
    have hne : ¬(trimSpace op.1 = c ∧
        (submit start fin s op.1 op.2.1 op.2.2).1 = SubmitResult.success) := by
      rintro ⟨hc, hs⟩
      exact no_success_of_allUsed c start fin s op.1 op.2.1 op.2.2 h hc hs
    rw [runSubmits_cons, List.zip_cons_cons, successCount_cons, if_neg hne,
      ih _ (allUsed_submit c start fin s op.1 op.2.1 op.2.2 h)]

lemma successCount_le_one (c : String) (start fin : Nat)
    (ops : List (String × String × Nat)) :
    ∀ s : Store, successCount c (ops.zip (runSubmits start fin s ops).2) ≤ 1 := by
  induction ops with
  | nil => intro s; exact Nat.zero_le 1
  | cons op rest ih =>
    intro s
    rw [runSubmits_cons, List.zip_cons_cons, successCount_cons]
    by_cases hc : trimSpace op.1 = c ∧
        (submit start fin s op.1 op.2.1 op.2.2).1 = SubmitResult.success
    · rw [if_pos hc, successCount_zero_of_allUsed c start fin rest
        (submit start fin s op.1 op.2.1 op.2.2).2
        (hc.1 ▸ allUsed_of_success start fin s op.1 op.2.1 op.2.2 hc.2)]
    · rw [if_neg hc]
      simpa using ih (submit start fin s op.1 op.2.1 op.2.2).2

lemma rowsAffected_eq_one_of_unique (s : Store) (code : String)
    (hu : CodesUnique s) (h : ∃ v ∈ s, v.code = code ∧ v.used = false) :
    rowsAffected s code = 1 := by
  induction s with
  | nil => simp at h
  | cons a t ih =>
    rw [CodesUnique, List.pairwise_cons] at hu
    obtain ⟨ha, ht⟩ := hu
    obtain ⟨v, hv, hc, hused⟩ := h
    rw [rowsAffected, List.filter_cons]
    rcases List.mem_cons.1 hv with rfl | hvt
    · rw [if_pos (by simp [hc, hused])]
      have h0 : rowsAffected t code = 0 := by
        rw [rowsAffected_eq_zero_iff]
        intro w hw hwc
        exact absurd (hc.trans hwc.symm) (ha w hw)
      rw [rowsAffected] at h0
      simp [h0]
    · have hac : ¬(a.code == code && !a.used) = true := by
        have : a.code ≠ code := fun e => ha v hvt (e.trans hc.symm)
        simp [this]
      rw [if_neg hac]
      exact ih ht ⟨v, hvt, hc, hused⟩

/-! ### Invariant preservation -/

lemma rowInv_redeemRow (code ch : String) (now : Nat) (v : Voter)
    (h : RowInv v) : RowInv (redeemRow code ch now v) := by
  unfold redeemRow
  split
  · exact ⟨by simp, by simp⟩
  · exact h

lemma rowInv_redeemStore (s : Store) (code ch : String) (now : Nat)
    (h : ∀ v ∈ s, RowInv v) :
    ∀ v ∈ redeemStore s code ch now, RowInv v := by
  intro v hv
  rw [redeemStore, List.mem_map] at hv
  obtain ⟨w, hw, rfl⟩ := hv
  exact rowInv_redeemRow code ch now w (h w hw)

lemma rowInv_submit (start fin : Nat) (s : Store) (cr chr : String)
    (now : Nat) (h : ∀ v ∈ s, RowInv v) :
    ∀ v ∈ (submit start fin s cr chr now).2, RowInv v := by
  by_cases hs : (submit start fin s cr chr now).1 = .success
  · rw [submit_snd_eq_of_success start fin s cr chr now hs]
    exact rowInv_redeemStore s (trimSpace cr) (trimSpace chr) now h
  · rw [submit_snd_eq_of_ne_success start fin s cr chr now hs]
    exact h

lemma rowInv_runSubmits (start fin : Nat)
    (ops : List (String × String × Nat)) :
    ∀ s : Store, (∀ v ∈ s, RowInv v) →
      ∀ v ∈ (runSubmits start fin s ops).1, RowInv v := by
  induction ops with
  | nil => intro s h; exact h
  | cons op rest ih =>
    intro s h
    rw [runSubmits_cons]
    exact ih (submit start fin s op.1 op.2.1 op.2.2).2
      (rowInv_submit start fin s op.1 op.2.1 op.2.2 h)

/-! ### Ordering of the admin roster -/

instance : IsTotal Voter (fun a b => voterLE a b = true) := by
  constructor
  intro a b
  cases ha : a.usedAt <;> cases hb : b.usedAt <;>
    simp [voterLE, ha, hb] <;> omega

instance : IsTrans Voter (fun a b => voterLE a b = true) := by
  constructor
  intro a b c hab hbc
  cases ha : a.usedAt <;> cases hb : b.usedAt <;> cases hc : c.usedAt <;>
    simp [voterLE, ha, hb, hc] at hab hbc ⊢ <;> omega

/-- Ordering stated by the specification for `listAll`: redemption time
ascending, not-yet-voted rows last, ties broken by the stable insertion
order (the `id` column assigned by the `SERIAL` sequence). This is the
spec-side description, compared against the implementation comparator
`voterLE`. -/
def specOrder (a b : Voter) : Prop :=
  match a.usedAt, b.usedAt with
  | some x, some y => x < y ∨ (x = y ∧ a.id ≤ b.id)
  | some _, none => True
  | none, some _ => False
  | none, none => a.id ≤ b.id

lemma voterLE_iff_specOrder (a b : Voter) :
    voterLE a b = true ↔ specOrder a b := by
  cases ha : a.usedAt <;> cases hb : b.usedAt <;>
    simp [voterLE, specOrder, ha, hb]

/-! ### Counting filtered rows -/

lemma length_filter_add_length_filter_or {α : Type} (l : List α)
    (p q : α → Bool) (h : ∀ a, ¬(p a = true ∧ q a = true)) :
    (l.filter p).length + (l.filter q).length =
      (l.filter (fun a => p a || q a)).length := by
  induction l with
  | nil => rfl
  | cons a t ih =>
    by_cases hp : p a = true
    · have hq : ¬ q a = true := fun hq => h a ⟨hp, hq⟩
      simp only [List.filter_cons, hp, hq, if_pos, if_neg, Bool.or_eq_true]
      simp [hp, hq, List.length_cons]
      omega
    · by_cases hq : q a = true
      · simp [List.filter_cons, hp, hq, List.length_cons]
        omega
      · simp [List.filter_cons, hp, hq]
        omega

/-! ## Claims -/

/-- C2, counterexample: with `start = end = 0` and `now = 0` the claim says
the window is never open (both because `start = end` and because
`now = end`), so `submit` must yield `windowClosed`; the code's gate
(`Before`/`After`, `main.go:292-299`) lets the call through and it reaches
the store, reporting `codeNotFound` on the empty store. -/
theorem claim_c2_counterexample :
    (submit 0 0 [] "a" "b" 0).1 = SubmitResult.codeNotFound ∧
    (submit 0 0 [] "a" "b" 0).1 ≠ SubmitResult.windowClosed := by
  constructor
  · decide
  · decide

/-- C2, amended: the voting window implemented by `voteHandler` is the
closed interval `[start, end]`: `submit` yields `windowClosed` exactly when
`now < start` or `end < now` (leaving the store untouched), and when
`start = end` the window is open at exactly the single instant
`now = start`. -/
theorem claim_c2_window_gate :
    ∀ (start fin : Nat) (s : Store) (cr chr : String) (now : Nat),
      ((submit start fin s cr chr now).1 = SubmitResult.windowClosed ↔
        now < start ∨ fin < now) ∧
      (now < start ∨ fin < now →
        submit start fin s cr chr now = (SubmitResult.windowClosed, s)) ∧
      (start = fin →
        ((submit start fin s cr chr now).1 = SubmitResult.windowClosed ↔
          now ≠ start)) := by
  intro start fin s cr chr now
  have hpair : now < start ∨ fin < now →
      submit start fin s cr chr now = (SubmitResult.windowClosed, s) := by
    rintro (h1 | h2)
    · exact submit_before start fin s cr chr now h1
    · by_cases h1 : now < start
      · exact submit_before start fin s cr chr now h1
      · exact submit_after start fin s cr chr now h1 h2
  have hmain : (submit start fin s cr chr now).1 = SubmitResult.windowClosed ↔
      now < start ∨ fin < now := by
    constructor
    · intro h
      by_contra hn
      push_neg at hn
      obtain ⟨h1, h2⟩ := hn
      rw [submit_open start fin s cr chr now (by omega) (by omega)] at h
      split_ifs at h
    · intro h
      rw [hpair h]
  refine ⟨hmain, hpair, ?_⟩
  intro hse
  subst hse
  rw [hmain]
  omega

/-- C2, witness for the amended theorem at `start = end = 2`, `now = 3`. -/
theorem claim_c2_witness :
    submit 2 2 ([] : Store) "a" "b" 3 = (SubmitResult.windowClosed, ([] : Store)) :=
  (claim_c2_window_gate 2 2 [] "a" "b" 3).2.1 (Or.inr (by decide))

/-- C3, counterexample: at `now = end` (here `5`, outside the specified
open window `[0, 5)`) the claim says `submit` returns `WindowClosed`
without touching the store; the code proceeds past the gate and reports
`codeNotFound` after consulting the store. -/
theorem claim_c3_counterexample :
    ¬(5 < 5) ∧ (submit 0 5 [] "a" "b" 5).1 = SubmitResult.codeNotFound ∧
    (submit 0 5 [] "a" "b" 5).1 ≠ SubmitResult.windowClosed := by
  refine ⟨by decide, by decide, by decide⟩

/-- C3, amended: `voteHandler` checks its rejections in order — first the
window gate (which opens on the closed interval `[start, end]`, not
`[start, end)`), then emptiness of the trimmed `code` and `choice`
(`invalidInput`, store untouched), then the conditional update (`success`
when it affects a row), and on `RowsAffected = 0` the `EXISTS` query
decides between `alreadyUsed` and `codeNotFound`, the store left
unchanged. -/
theorem claim_c3_submit_order :
    ∀ (start fin : Nat) (s : Store) (cr chr : String) (now : Nat),
      (now < start ∨ fin < now →
        submit start fin s cr chr now = (SubmitResult.windowClosed, s)) ∧
      (¬(now < start ∨ fin < now) →
        (trimSpace cr = "" ∨ trimSpace chr = "") →
        submit start fin s cr chr now = (SubmitResult.invalidInput, s)) ∧
      (¬(now < start ∨ fin < now) →
        trimSpace cr ≠ "" → trimSpace chr ≠ "" →
        (rowsAffected s (trimSpace cr) ≠ 0 →
          submit start fin s cr chr now =
            (SubmitResult.success,
              (redeem s (trimSpace cr) (trimSpace chr) now).1)) ∧
        (rowsAffected s (trimSpace cr) = 0 →
          submit start fin s cr chr now =
            ((if storeExists s (trimSpace cr) then SubmitResult.alreadyUsed
              else SubmitResult.codeNotFound), s))) := by
  intro start fin s cr chr now
  refine ⟨?_, ?_, ?_⟩
  · rintro (h1 | h2)
    · exact submit_before start fin s cr chr now h1
    · by_cases h1 : now < start
      · exact submit_before start fin s cr chr now h1
      · exact submit_after start fin s cr chr now h1 h2
  · intro hw he
    rw [not_or] at hw
    rw [submit_open start fin s cr chr now hw.1 hw.2]
    rcases he with he | he
    · rw [if_pos he]
    · by_cases hcr : trimSpace cr = ""
      · rw [if_pos hcr]
      · rw [if_neg hcr, if_pos he]
  · intro hw hc hch
    rw [not_or] at hw
    rw [submit_open start fin s cr chr now hw.1 hw.2, if_neg hc, if_neg hch]
    constructor
    · intro hra
      rw [if_neg hra]
      exact rfl
    · intro hra
      rw [if_pos hra,
        redeemStore_eq_of_zero s (trimSpace cr) (trimSpace chr) now hra]
      split_ifs <;> rfl

/-- C3, witness for the amended theorem: an in-window submission with the
seeded store succeeds and returns the updated store. -/
theorem claim_c3_witness :
    submit 0 5 initialVoters "Ht67h" "setuju" 3 =
      (SubmitResult.success,
        (redeem initialVoters (trimSpace "Ht67h") (trimSpace "setuju") 3).1) :=
  ((claim_c3_submit_order 0 5 initialVoters "Ht67h" "setuju" 3).2.2
    (by decide) (by decide) (by decide)).1 (by decide)

/-- C8: `basicAuthValid` fails closed — whenever the configured admin user
or password is empty, it returns `false` for every request, before even
reading the `Authorization` header (`main.go:347-349`). -/
theorem claim_c8_auth_fail_closed :
    ∀ (auth user pass : String), user = "" ∨ pass = "" →
      basicAuthValid auth user pass = false := by
  intro auth user pass h
  rcases h with h | h <;> simp [basicAuthValid, h]

/-- C8, witness: a syntactically valid header whose payload matches the
configured password is still rejected when the configured user is empty. -/
theorem claim_c8_witness : basicAuthValid "Basic OnNlY3JldA==" "" "secret" = false :=
  claim_c8_auth_fail_closed "Basic OnNlY3JldA==" "" "secret" (Or.inl rfl)

/-- C9: `voteHandler` validates `choice` only for non-emptiness after
trimming — any trimmed non-empty string redeems an existing unused code
inside the window and is persisted verbatim as `vote_choice`
(`main.go:301-318`). -/
theorem claim_c9_choice_unvalidated :
    ∀ (start fin : Nat) (s : Store) (code choice : String) (now : Nat)
      (v : Voter),
      ¬ now < start → ¬ fin < now →
      trimSpace code = code → code ≠ "" →
      trimSpace choice = choice → choice ≠ "" →
      v ∈ s → v.code = code → v.used = false →
      (submit start fin s code choice now).1 = SubmitResult.success ∧
      { v with used := true, usedAt := some now, choice := some choice } ∈
        (submit start fin s code choice now).2 := by
  intro start fin s code choice now v h1 h2 htc hcne htch hchne hv hc hu
  have hra : rowsAffected s code ≠ 0 :=
    (rowsAffected_ne_zero_iff s code).2 ⟨v, hv, hc, hu⟩
  have hfst : (submit start fin s code choice now).1 = SubmitResult.success := by
    rw [submit_fst_eq_success_iff]
    exact ⟨h1, h2, by rw [htc]; exact hcne, by rw [htch]; exact hchne,
      by rw [htc]; exact hra⟩
  refine ⟨hfst, ?_⟩
  rw [submit_snd_eq_of_success start fin s code choice now hfst, htc, htch]
  rw [← redeemRow_eq_update code choice now v hc hu]
  exact List.mem_map_of_mem _ hv

/-- C9, witness: the string `sembarang pilihan`, which is not a ballot
option, is accepted and persisted verbatim. -/
theorem claim_c9_witness :
    (submit 0 5 initialVoters "Ht67h" "sembarang pilihan" 3).1 =
      SubmitResult.success ∧
    (Voter.mk 1 "Ht67h" "Titus Prasetyo" true (some 3)
        (some "sembarang pilihan")) ∈
      (submit 0 5 initialVoters "Ht67h" "sembarang pilihan" 3).2 :=
  claim_c9_choice_unvalidated 0 5 initialVoters "Ht67h" "sembarang pilihan" 3
    (Voter.mk 1 "Ht67h" "Titus Prasetyo" false none none)
    (by decide) (by decide) (by decide) (by decide) (by decide) (by decide)
    (by decide) (by decide) (by decide)

/-- C5, counterexample: redeem the seeded code `Ht67h` with the choice
`abstain` (accepted, by C9); in the resulting store the two hardcoded
tallies of `adminHandler` (`main.go:393-395`) sum to `0` while
`votedCount = 1`, so the sum of the per-choice tallies does not equal
`votedCount` and the tally is not the claimed generic per-choice mapping. -/
theorem claim_c5_counterexample :
    setujuCount (submit 0 10 initialVoters "Ht67h" "abstain" 5).2 +
        tidakSetujuCount (submit 0 10 initialVoters "Ht67h" "abstain" 5).2 ≠
      votedCount (submit 0 10 initialVoters "Ht67h" "abstain" 5).2 := by
  decide

/-- C5, amended: `adminHandler` tallies exactly the two hardcoded choices
`setuju` and `tidak setuju`; for every store `votedCount + notVotedCount =
total` holds, and the two tallies sum to the number of rows whose
`vote_choice` is one of those two strings — which can be smaller than
`votedCount`. -/
theorem claim_c5_aggregates :
    ∀ s : Store,
      votedCount s + notVotedCount s = totalVoters s ∧
      setujuCount s + tidakSetujuCount s =
        (s.filter (fun v => v.choice == some "setuju" ||
          v.choice == some "tidak setuju")).length := by
  intro s
  constructor
  · have hle : votedCount s ≤ totalVoters s := List.length_filter_le _ s
    simp only [notVotedCount]
    omega
  · apply length_filter_add_length_filter_or
    intro v
    rintro ⟨h1, h2⟩
    rw [beq_iff_eq] at h1 h2
    exact absurd (h1.symm.trans h2) (by decide)

/-- C6, counterexample: `adminHandler` issues its counts query and its rows
query separately with no transaction (`main.go:391, 408`); if a redemption
commits between the two, the `votedCount` read by the first disagrees with
the voted partition built from the second, which a single-read-transaction
snapshot could never do. -/
theorem claim_c6_counterexample :
    (adminSummary initialVoters initialVoters
        (submit 0 10 initialVoters "Ht67h" "setuju" 5).2).VotedCount ≠
      (adminSummary initialVoters initialVoters
        (submit 0 10 initialVoters "Ht67h" "setuju" 5).2).VotedVoters.length := by
  decide

/-- C6, amended: the summary derives from three independent queries; only
when all three observe the same committed store are its counts and
partitions mutually consistent (`total = |all|`, `votedCount = |voted|`,
`notVotedCount = |notVoted|`, `votedCount + notVotedCount = total`). -/
theorem claim_c6_single_state_consistency :
    ∀ s : Store,
      (adminSummary s s s).TotalVoters = (adminSummary s s s).AllVoters.length ∧
      (adminSummary s s s).VotedCount = (adminSummary s s s).VotedVoters.length ∧
      (adminSummary s s s).NotVotedCount =
        (adminSummary s s s).NotVotedVoters.length ∧
      (adminSummary s s s).VotedCount + (adminSummary s s s).NotVotedCount =
        (adminSummary s s s).TotalVoters := by
  intro s
  have hperm : (listAll s).Perm s := List.perm_insertionSort _ s
  have hlen : (listAll s).length = s.length := hperm.length_eq
  have hvoted : votedCount s = (votedVoters s).length := by
    rw [votedCount, votedVoters]
    exact ((hperm.filter (fun v => v.used)).length_eq).symm
  have hnotv : ((listAll s).filter (fun v => !v.used)).length =
      (s.filter (fun v => !v.used)).length :=
    (hperm.filter (fun v => !v.used)).length_eq
  have hsplit : s.length = (s.filter (fun v => v.used)).length +
      (s.filter (fun v => !v.used)).length :=
    List.length_eq_length_filter_add (fun v => v.used)
  refine ⟨?_, ?_, ?_, ?_⟩
  · simpa [adminSummary, totalVoters] using hlen.symm
  · simpa [adminSummary, votedVoters] using hvoted
  · show totalVoters s - votedCount s = (notVotedVoters s).length
    rw [notVotedVoters, hnotv, totalVoters, votedCount]
    omega
  · show votedCount s + (totalVoters s - votedCount s) = totalVoters s
    have hle : votedCount s ≤ totalVoters s := List.length_filter_le _ s
    omega

/-- C7: the admin roster query returns every voter (a permutation of the
store), sorted by the order the spec describes — redemption time ascending
with not-yet-voted rows last, ties broken by the stable insertion order —
and the implementation's `ORDER BY used_at NULLS LAST, id` comparator
coincides with that description pointwise. -/
theorem claim_c7_listAll_order :
    ∀ s : Store,
      (listAll s).Perm s ∧
      List.Sorted specOrder (listAll s) ∧
      (∀ a b : Voter, voterLE a b = true ↔ specOrder a b) := by
  intro s
  refine ⟨List.perm_insertionSort _ s, ?_, voterLE_iff_specOrder⟩
  have hs := List.sorted_insertionSort (fun a b => voterLE a b = true) s
  exact hs.imp (fun h => (voterLE_iff_specOrder _ _).1 h)

/-- C10: the status-lookup path queries the `votes` table, which the
schema of `migrate.sql` never creates; the query error is silently treated
as not-voted, so on any store whose `votes` relation is absent every
lookup of a used code reports `HasVoted = false` with the message
`Kode sudah digunakan.` — the thank-you branch is dead. -/
theorem claim_c10_votes_table_missing :
    migrateDB.votesTable = none ∧
    ∀ (voters : Store) (start fin now : Nat) (code : String) (v : Voter),
      voters.find? (fun x => x.code == code) = some v →
      v.used = true →
      code ≠ "" →
      (indexLookup ⟨voters, none⟩ start fin now code).hasVoted = false ∧
      (indexLookup ⟨voters, none⟩ start fin now code).alreadyUsed = true ∧
      (indexLookup ⟨voters, none⟩ start fin now code).message =
        "Kode sudah digunakan." := by
  refine ⟨rfl, ?_⟩
  intro voters start fin now code v hfind hused hcode
  simp only [indexLookup, votesQuery, if_neg hcode, hfind, hused,
    Option.isSome_none, if_true, Bool.false_eq_true, if_false]
  exact ⟨trivial, trivial, trivial⟩

/-- C10, witness: on a one-row store with the code used and no `votes`
relation, the lookup reports the already-used message, not the thank-you
one. -/
theorem claim_c10_witness :
    (indexLookup
        ⟨[Voter.mk 1 "Ht67h" "Titus Prasetyo" true (some 2) (some "setuju")],
          none⟩ 0 10 5 "Ht67h").hasVoted = false ∧
    (indexLookup
        ⟨[Voter.mk 1 "Ht67h" "Titus Prasetyo" true (some 2) (some "setuju")],
          none⟩ 0 10 5 "Ht67h").alreadyUsed = true ∧
    (indexLookup
        ⟨[Voter.mk 1 "Ht67h" "Titus Prasetyo" true (some 2) (some "setuju")],
          none⟩ 0 10 5 "Ht67h").message = "Kode sudah digunakan." :=
  claim_c10_votes_table_missing.2
    [Voter.mk 1 "Ht67h" "Titus Prasetyo" true (some 2) (some "setuju")]
    0 10 5 "Ht67h"
    (Voter.mk 1 "Ht67h" "Titus Prasetyo" true (some 2) (some "setuju"))
    (by decide) rfl (by decide)

/-- C1: the redemption is a single conditional write. Under the schema's
`UNIQUE` code constraint, `redeem(code, choice, now)` reports
`RowsAffected = 1` and rewrites exactly the matching unused row (setting
`used`, `used_at`, `vote_choice`) when such a row exists, leaving every
other row in place; when no unused row carries the code it reports
`RowsAffected = 0` and leaves the store unchanged; and across any sequence
of `submit` calls at most one submission for any given code ever
succeeds. -/
theorem claim_c1_redeem_conditional_write :
    ∀ (s : Store) (code ch : String) (now : Nat),
      (CodesUnique s →
        ((∃ v ∈ s, v.code = code ∧ v.used = false) →
          (redeem s code ch now).2 = 1 ∧
          ∀ v ∈ s,
            (v.code = code ∧ v.used = false →
              { v with used := true, usedAt := some now, choice := some ch } ∈
                (redeem s code ch now).1) ∧
            (¬(v.code = code ∧ v.used = false) →
              v ∈ (redeem s code ch now).1))) ∧
      ((¬∃ v ∈ s, v.code = code ∧ v.used = false) →
        (redeem s code ch now).2 = 0 ∧ (redeem s code ch now).1 = s) ∧
      (∀ (start fin : Nat) (ops : List (String × String × Nat)) (c : String),
        successCount c (ops.zip (runSubmits start fin s ops).2) ≤ 1) := by
  intro s code ch now
  refine ⟨?_, ?_, ?_⟩
  · intro hu hex
    refine ⟨rowsAffected_eq_one_of_unique s code hu hex, ?_⟩
    intro v hv
    constructor
    · rintro ⟨hc, hused⟩
      have hupd := redeemRow_eq_update code ch now v hc hused
      have hmem : redeemRow code ch now v ∈ redeemStore s code ch now :=
        List.mem_map_of_mem _ hv
      rw [hupd] at hmem
      exact hmem
    · intro hn
      have hfix : redeemRow code ch now v = v := by
        unfold redeemRow
        rw [if_neg]
        intro hb
        simp only [Bool.and_eq_true, beq_iff_eq, Bool.not_eq_true'] at hb
        exact hn hb
      have hmem : redeemRow code ch now v ∈ redeemStore s code ch now :=
        List.mem_map_of_mem _ hv
      rw [hfix] at hmem
      exact hmem
  · intro hnex
    have h0 : rowsAffected s code = 0 := by
      by_contra hne
      exact hnex ((rowsAffected_ne_zero_iff s code).1 hne)
    exact ⟨h0, redeemStore_eq_of_zero s code ch now h0⟩
  · intro start fin ops c
    exact successCount_le_one c start fin ops s

/-- C1, witness: on the seeded store the conditional write for `Ht67h`
affects exactly one row. -/
theorem claim_c1_witness : (redeem initialVoters "Ht67h" "setuju" 3).2 = 1 :=
  (((claim_c1_redeem_conditional_write initialVoters "Ht67h" "setuju" 3).1
    (by decide)) (by decide)).1

/-- C4: the invariant `used = true ↔ used_at non-null ↔ choice non-null`
holds for every row of the provisioned store and is preserved by the
conditional write, by every single `submit`, and by every sequence of
submissions. -/
theorem claim_c4_invariant_preserved :
    (∀ v ∈ initialVoters, RowInv v) ∧
    (∀ (s : Store) (code ch : String) (now : Nat),
      (∀ v ∈ s, RowInv v) → ∀ v ∈ (redeem s code ch now).1, RowInv v) ∧
    (∀ (start fin : Nat) (s : Store) (cr chr : String) (now : Nat),
      (∀ v ∈ s, RowInv v) →
        ∀ v ∈ (submit start fin s cr chr now).2, RowInv v) ∧
    (∀ (start fin : Nat) (s : Store) (ops : List (String × String × Nat)),
      (∀ v ∈ s, RowInv v) → ∀ v ∈ (runSubmits start fin s ops).1, RowInv v) := by
  refine ⟨by decide, ?_, ?_, ?_⟩
  · exact fun s code ch now h => rowInv_redeemStore s code ch now h
  · exact fun start fin s cr chr now h => rowInv_submit start fin s cr chr now h
  · exact fun start fin s ops h => rowInv_runSubmits start fin ops s h

/-- C4, witness: the row produced by an actual redemption satisfies the
invariant. -/
theorem claim_c4_witness :
    RowInv (Voter.mk 1 "Ht67h" "Titus Prasetyo" true (some 3) (some "setuju")) :=
  claim_c4_invariant_preserved.2.2.1 0 5 initialVoters "Ht67h" "setuju" 3
    (by decide)
    (Voter.mk 1 "Ht67h" "Titus Prasetyo" true (some 3) (some "setuju"))
    (by decide)

end Pemilihan
